import Mathlib

/-!
Shallow embedding of the map-memory cache of `src/src/map_memory.cpp`
(Cataclysm-BN): a spatial memory cache that partitions the world into
fixed-size chunks ("submaps"), keeps a rectangular window of chunks in a
dense array for fast lookup, and loads/saves chunks from per-chunk files.

Pure data is translated directly; the mutable `map_memory` object becomes
an explicit state record `MMState`; disk access becomes an explicit
environment (`DiskEnv`, `SaveEnv`); `debugmsg` output becomes an explicit
list of log strings where a claim depends on it.  Chunks are stored in a
heap (`MMState.heap`, addressed by index) so that the C++ sharing of
`shared_ptr_fast<memorized_submap>` between the store and the window's
dense array is observable.
-/

namespace MapMemory

/-- 2D integer point, mirroring the game's `point`. -/
structure point where
  x : Int
  y : Int
deriving DecidableEq, Repr

/-- 3D integer point, mirroring the game's `tripoint`. -/
structure tripoint where
  x : Int
  y : Int
  z : Int
deriving DecidableEq, Repr

def tripoint.xy (p : tripoint) : point := ⟨p.x, p.y⟩

instance : Add point := ⟨fun a b => ⟨a.x + b.x, a.y + b.y⟩⟩

instance : Sub point := ⟨fun a b => ⟨a.x - b.x, a.y - b.y⟩⟩

instance : Add tripoint := ⟨fun a b => ⟨a.x + b.x, a.y + b.y, a.z + b.z⟩⟩

instance : Sub tripoint := ⟨fun a b => ⟨a.x - b.x, a.y - b.y, a.z - b.z⟩⟩

/-- `tripoint + point` keeps the z-level, as in the C++ operator. -/
instance : HAdd tripoint point tripoint := ⟨fun a b => ⟨a.x + b.x, a.y + b.y, a.z⟩⟩

/-- `tripoint - point` keeps the z-level, as in the C++ operator. -/
instance : HSub tripoint point tripoint := ⟨fun a b => ⟨a.x - b.x, a.y - b.y, a.z⟩⟩

/-- `memorized_terrain_tile { ter, subtile, rotation }`. -/
structure memorized_terrain_tile where
  ter : String
  subtile : Int
  rotation : Int
deriving DecidableEq, Repr

/-- `static const memorized_terrain_tile default_tile{ "", 0, 0 };` -/
def default_tile : memorized_terrain_tile := ⟨"", 0, 0⟩

/-- `static const int default_symbol = 0;` -/
def default_symbol : Int := 0

/-- A chunk of remembered map: a grid of tiles and a parallel grid of
symbol codes, indexed as `tiles[x][y]` / `symbols[x][y]`. -/
structure memorized_submap where
  tiles : Int → Int → memorized_terrain_tile
  symbols : Int → Int → Int

/-- `memorized_submap::memorized_submap()`: every cell holds the default
tile and the default symbol. -/
def memorized_submap.init : memorized_submap :=
  ⟨fun _ _ => default_tile, fun _ _ => default_symbol⟩

/-- Modelled from the spec: the chunk edge length `S` (the world constant
`SEEX`; the spec's scenarios use `S = 12`).  The conversion helper
`ms_to_sm_remain` lives in `coordinate_conversions.h`, which is outside
this excerpt. -/
def SEEX : Int := 12

/-- `map_memory::coord_pair`: chunk coordinate plus local offset. -/
structure coord_pair where
  sm : tripoint
  loc : point
deriving DecidableEq, Repr

/-- Modelled from the spec: `coord_pair::coord_pair(p)` uses
`ms_to_sm_remain` (outside this excerpt), which per the spec performs
floor division of the x/y components by the chunk edge with the remainder
left as the local offset; the z component is kept as the chunk z. -/
def coord_pair.of (p : tripoint) : coord_pair :=
  ⟨⟨p.x.fdiv SEEX, p.y.fdiv SEEX, p.z⟩, ⟨p.x.fmod SEEX, p.y.fmod SEEX⟩⟩

/-- Disk environment seen by the loader: whether the per-save chunk
directory exists, the parse outcome for each chunk file (`none` = file
missing, `Except.error` = parse throws, `Except.ok` = parsed submap), and
the parse outcome of the legacy single file (`none` = file missing). -/
structure DiskEnv where
  dir_exists : Bool
  file : tripoint → Option (Except String memorized_submap)
  legacy_file : Option (Except String (List (tripoint × memorized_submap)))

/-- The `debugmsg` text of `load_submap`:
`"Failed to load memory submap (%d,%d,%d): %s"`. -/
def submap_load_error_msg (sm_pos : tripoint) (err : String) : String :=
  "Failed to load memory submap (" ++ toString sm_pos.x ++ "," ++
    toString sm_pos.y ++ "," ++ toString sm_pos.z ++ "): " ++ err

/-- `map_memory::load_submap`: `none` if the directory is absent; else read
the chunk's file: missing file gives `none`, a parse exception is caught,
logged via `debugmsg` and gives `none`, a successful parse gives the
freshly allocated, populated submap. -/
def load_submap (env : DiskEnv) (sm_pos : tripoint) :
    Option memorized_submap × List String :=
  if env.dir_exists = false then
    (none, [])
  else
    match env.file sm_pos with
    | none => (none, [])
    | some (Except.ok sm) => (some sm, [])
    | some (Except.error err) => (none, [submap_load_error_msg sm_pos err])

/-- The state of a `map_memory` object, together with the process-global
sentinel `null_mz_submap`.  Submaps live in `heap` and are referred to by
index, mirroring the shared-pointer graph. -/
structure MMState where
  cache_pos : tripoint
  cache_size : point
  cached : List Nat
  submaps : List (tripoint × Nat)
  heap : List memorized_submap
  null_mz_submap : memorized_submap

/-- Lookup in the chunk store (`submaps.find( sm_pos )`).  The store is an
association list where the earliest binding wins, matching `std::map`
insertion that never overwrites an existing key. -/
def find_submap {α : Type} (l : List (tripoint × α)) (p : tripoint) : Option α :=
  match l.find? (fun e => decide (e.1 = p)) with
  | some e => some e.2
  | none => none

/-- `map_memory::allocate_submap()`. -/
def allocate_submap : memorized_submap := memorized_submap.init

/-- `map_memory::fetch_submap`: return the tracked submap for `sm_pos`,
creating it on a miss (from disk if possible, else freshly allocated) and
registering it in the store before returning it. -/
def fetch_submap (env : DiskEnv) (st : MMState) (sm_pos : tripoint) :
    Nat × MMState :=
  match find_submap st.submaps sm_pos with
  | some id => (id, st)
  | none =>
    let sm1 : memorized_submap :=
      match (load_submap env sm_pos).1 with
      | some c => c
      | none => allocate_submap
    let id := st.heap.length
    (id, { st with
            heap := st.heap ++ [sm1],
            submaps := st.submaps ++ [(sm_pos, id)] })

/-- The row-major (y outer, x inner) list of chunk coordinates of a
window, as traversed by the loops of `prepare_region`. -/
def window_coords (sm_pos : tripoint) (sm_size : point) : List tripoint :=
  (List.range sm_size.y.toNat).flatMap (fun dy =>
    (List.range sm_size.x.toNat).map (fun dx =>
      sm_pos + point.mk (Int.ofNat dx) (Int.ofNat dy)))

/-- `map_memory::prepare_region`: compute the window with one chunk of
padding on the low side; if it equals the current window, do nothing;
otherwise rebuild the dense array by fetching every coordinate in
row-major order.  The second component is the list of coordinates passed
to `fetch_submap` (empty on the short-circuit path). -/
def prepare_region (env : DiskEnv) (st : MMState) (p1 p2 : tripoint) :
    MMState × List tripoint :=
  let sm_pos : tripoint := (coord_pair.of p1).sm - point.mk 1 1
  let sm_size : point := ((coord_pair.of p2).sm - sm_pos).xy + point.mk 1 1
  if sm_pos = st.cache_pos ∧ sm_size = st.cache_size then
    (st, [])
  else
    let coords := window_coords sm_pos sm_size
    let init : MMState :=
      { st with cache_pos := sm_pos, cache_size := sm_size, cached := [] }
    (coords.foldl (fun acc c =>
        let r := fetch_submap env acc c
        { r.2 with cached := r.2.cached ++ [r.1] }) init,
      coords)

/-- A reference to a submap as returned by `get_submap`: either a shared
pointer into the dense array (a heap index) or the global sentinel. -/
inductive submap_ref where
  | cell (id : Nat)
  | null_ref
deriving DecidableEq, Repr

/-- `map_memory::get_submap` (both const and non-const overloads share
this logic): `idx = (sm_pos - cache_pos).xy()`; the bounds test is the
source's `idx.x > 0 && idx.y > 0 && idx.x < cache_size.x && idx.y <
cache_size.y`, with a strict lower bound. -/
def get_submap (st : MMState) (sm_pos : tripoint) : submap_ref :=
  let idx : point := (sm_pos - st.cache_pos).xy
  if idx.x > 0 ∧ idx.y > 0 ∧ idx.x < st.cache_size.x ∧ idx.y < st.cache_size.y then
    submap_ref.cell (st.cached.getD (idx.y * st.cache_size.x + idx.x).toNat 0)
  else
    submap_ref.null_ref

/-- Dereference a submap reference for reading. -/
def read_ref (st : MMState) (r : submap_ref) : memorized_submap :=
  match r with
  | submap_ref.cell id => st.heap.getD id memorized_submap.init
  | submap_ref.null_ref => st.null_mz_submap

/-- Mutate through a submap reference: a `cell` write updates the heap
entry (visible to every sharer); a `null_ref` write mutates the global
sentinel. -/
def modify_ref (st : MMState) (r : submap_ref)
    (f : memorized_submap → memorized_submap) : MMState :=
  match r with
  | submap_ref.cell id =>
    { st with heap := st.heap.set id (f (st.heap.getD id memorized_submap.init)) }
  | submap_ref.null_ref =>
    { st with null_mz_submap := f st.null_mz_submap }

/-- `sm.tiles[lx][ly] = t`. -/
def set_tile_at (sm : memorized_submap) (lx ly : Int)
    (t : memorized_terrain_tile) : memorized_submap :=
  { sm with tiles := fun x y => if x = lx ∧ y = ly then t else sm.tiles x y }

/-- `sm.symbols[lx][ly] = s`. -/
def set_symbol_at (sm : memorized_submap) (lx ly : Int) (s : Int) :
    memorized_submap :=
  { sm with symbols := fun x y => if x = lx ∧ y = ly then s else sm.symbols x y }

/-- `map_memory::get_tile`. -/
def get_tile (st : MMState) (pos : tripoint) : memorized_terrain_tile :=
  let p := coord_pair.of pos
  (read_ref st (get_submap st p.sm)).tiles p.loc.x p.loc.y

/-- `map_memory::memorize_tile`. -/
def memorize_tile (st : MMState) (pos : tripoint) (ter : String)
    (subtile rotation : Int) : MMState :=
  let p := coord_pair.of pos
  modify_ref st (get_submap st p.sm)
    (fun sm => set_tile_at sm p.loc.x p.loc.y ⟨ter, subtile, rotation⟩)

/-- `map_memory::get_symbol`. -/
def get_symbol (st : MMState) (pos : tripoint) : Int :=
  let p := coord_pair.of pos
  (read_ref st (get_submap st p.sm)).symbols p.loc.x p.loc.y

/-- `map_memory::memorize_symbol`. -/
def memorize_symbol (st : MMState) (pos : tripoint) (symbol : Int) : MMState :=
  let p := coord_pair.of pos
  modify_ref st (get_submap st p.sm)
    (fun sm => set_symbol_at sm p.loc.x p.loc.y symbol)

/-- Modelled from the spec: `MAPSIZE`, the standard visible-area constant
(defined outside this excerpt). -/
def MAPSIZE : Int := 11

/-- `#define MM_SIZE (MAPSIZE * 2)`. -/
def MM_SIZE : Int := MAPSIZE * 2

/-- Modelled from the spec: `map_memory::load_legacy` (declared in the
header, defined outside this excerpt) parses the legacy single file and
populates the Chunk Store directly from it: each parsed `(coordinate,
submap)` entry is allocated and registered in the store. -/
def load_legacy (st : MMState) (entries : List (tripoint × memorized_submap)) :
    MMState :=
  entries.foldl (fun acc e =>
    { acc with
        heap := acc.heap ++ [e.2],
        submaps := acc.submaps ++ [(e.1, acc.heap.length)] }) st

/-- The square list of chunk coordinates fetched by `map_memory::load`
when the chunk directory exists. -/
def load_window_coords (start : tripoint) (n : Nat) : List tripoint :=
  (List.range n).flatMap (fun dy =>
    (List.range n).map (fun dx =>
      start + tripoint.mk (Int.ofNat dx) (Int.ofNat dy) 0))

/-- `map_memory::load`: if the chunk directory is absent, fall back to the
legacy single file (parsing it through `load_legacy`; a parse exception is
caught and logged) and return; otherwise eagerly fetch an `MM_SIZE` ×
`MM_SIZE` square of chunks centered on the chunk containing `pos`.  The
second component is the list of coordinates passed to `fetch_submap`. -/
def load (env : DiskEnv) (st : MMState) (pos : tripoint) :
    MMState × List tripoint :=
  if env.dir_exists = false then
    match env.legacy_file with
    | none => (st, [])
    | some (Except.error _) => (st, [])
    | some (Except.ok entries) => (load_legacy st entries, [])
  else
    let p := coord_pair.of pos
    let start : tripoint := p.sm - tripoint.mk (MM_SIZE / 2) (MM_SIZE / 2) 0
    let coords := load_window_coords start MM_SIZE.toNat
    (coords.foldl (fun acc c => (fetch_submap env acc c).2) st, coords)

/-- Environment for `save`: whether `assure_dir_exist` succeeds, and
whether `write_to_file` succeeds for each chunk's file. -/
structure SaveEnv where
  assure_dir_ok : Bool
  write_ok : tripoint → Bool

/-- `map_memory::save`: ensure the directory, write every tracked chunk to
its own file, and `return true`.  The results of `assure_dir_exist` and of
each `write_to_file` call are ignored by the source; the first component
records the write attempts `(coordinate, succeeded)`. -/
def save (env : SaveEnv) (st : MMState) : List (tripoint × Bool) × Bool :=
  (st.submaps.map (fun e => (e.1, env.write_ok e.1)), true)

/-- The window-membership predicate of the specification: the index of
`sm_pos` relative to the window origin lies within `[0, size)` on both
axes (index 0 included). -/
def chunk_in_window (st : MMState) (sm_pos : tripoint) : Prop :=
  0 ≤ ((sm_pos - st.cache_pos).xy).x ∧ 0 ≤ ((sm_pos - st.cache_pos).xy).y ∧
  ((sm_pos - st.cache_pos).xy).x < st.cache_size.x ∧
  ((sm_pos - st.cache_pos).xy).y < st.cache_size.y

instance chunk_in_window_dec (st : MMState) (sm_pos : tripoint) :
    Decidable (chunk_in_window st sm_pos) := by
  unfold chunk_in_window
  infer_instance

/-! ### Concrete states and environments used in witnesses -/

/-- A window at origin `(0,0,0)` of size `2×2`, its four cells distinct
heap entries. -/
def cst1 : MMState :=
  { cache_pos := ⟨0, 0, 0⟩, cache_size := ⟨2, 2⟩, cached := [0, 1, 2, 3],
    submaps := [(⟨0, 0, 0⟩, 0), (⟨1, 0, 0⟩, 1), (⟨0, 1, 0⟩, 2), (⟨1, 1, 0⟩, 3)],
    heap := [memorized_submap.init, memorized_submap.init,
             memorized_submap.init, memorized_submap.init],
    null_mz_submap := memorized_submap.init }

/-- A fresh `map_memory` with empty window and empty store. -/
def cstE : MMState :=
  { cache_pos := ⟨0, 0, 0⟩, cache_size := ⟨0, 0⟩, cached := [],
    submaps := [], heap := [], null_mz_submap := memorized_submap.init }

/-- Disk with no chunk directory and no legacy file. -/
def env_nodir : DiskEnv := ⟨false, fun _ => none, none⟩

/-- Chunk directory present, every chunk file missing. -/
def env_missing : DiskEnv := ⟨true, fun _ => none, none⟩

/-- Chunk directory present, every chunk file present but unparseable. -/
def env_badfile : DiskEnv := ⟨true, fun _ => some (Except.error "bad json"), none⟩

/-- Chunk directory present, every chunk file parses to an empty submap. -/
def env_goodfile : DiskEnv :=
  ⟨true, fun _ => some (Except.ok memorized_submap.init), none⟩

/-! ### Helper lemmas -/

theorem find_submap_append_some {α : Type} {l1 l2 : List (tripoint × α)}
    {p : tripoint} {v : α} (h : find_submap l1 p = some v) :
    find_submap (l1 ++ l2) p = some v := by
  unfold find_submap at h ⊢
  rcases hf : l1.find? (fun e => decide (e.1 = p)) with _ | e
  · rw [hf] at h
    exact absurd h (by simp)
  · rw [hf] at h
    have h2 : e.2 = v := Option.some.inj h
    simp [List.find?_append, hf, h2]

theorem find_submap_append_none {α : Type} {l1 l2 : List (tripoint × α)}
    {p : tripoint} (h : find_submap l1 p = none) :
    find_submap (l1 ++ l2) p = find_submap l2 p := by
  unfold find_submap at h ⊢
  rcases hf : l1.find? (fun e => decide (e.1 = p)) with _ | e
  · simp [List.find?_append, hf]
  · rw [hf] at h
    exact absurd h (by simp)

theorem find_submap_singleton_eq {α : Type} {p : tripoint} (v : α) :
    find_submap [(p, v)] p = some v := by
  simp [find_submap]

theorem find_submap_singleton_ne {α : Type} {p q : tripoint} (v : α)
    (h : q ≠ p) : find_submap [(q, v)] p = none := by
  simp [find_submap, h]

/-- `fetch_submap` on a tracked coordinate returns the stored index and
leaves the state unchanged. -/
theorem fetch_submap_hit {st : MMState} {sm_pos : tripoint} {id : Nat}
    (env : DiskEnv) (h : find_submap st.submaps sm_pos = some id) :
    fetch_submap env st sm_pos = (id, st) := by
  unfold fetch_submap
  rw [h]

/-- `fetch_submap` on a miss appends the loaded (or freshly allocated)
submap to the heap and registers it in the store. -/
theorem fetch_submap_miss {st : MMState} {sm_pos : tripoint}
    (env : DiskEnv) (h : find_submap st.submaps sm_pos = none) :
    fetch_submap env st sm_pos =
      (st.heap.length,
       { st with
          heap := st.heap ++ [match (load_submap env sm_pos).1 with
                              | some c => c
                              | none => allocate_submap],
          submaps := st.submaps ++ [(sm_pos, st.heap.length)] }) := by
  unfold fetch_submap
  rw [h]

/-- `fetch_submap` never touches the window fields or the sentinel. -/
theorem fetch_submap_fields (env : DiskEnv) (st : MMState) (sm_pos : tripoint) :
    (fetch_submap env st sm_pos).2.cache_pos = st.cache_pos ∧
    (fetch_submap env st sm_pos).2.cache_size = st.cache_size ∧
    (fetch_submap env st sm_pos).2.cached = st.cached ∧
    (fetch_submap env st sm_pos).2.null_mz_submap = st.null_mz_submap := by
  rcases hf : find_submap st.submaps sm_pos with _ | id
  · rw [fetch_submap_miss env hf]
    exact ⟨rfl, rfl, rfl, rfl⟩
  · rw [fetch_submap_hit env hf]
    exact ⟨rfl, rfl, rfl, rfl⟩

/-- `fetch_submap` preserves every existing store binding and its chunk. -/
theorem fetch_submap_preserves (env : DiskEnv) (st : MMState) (sm_pos : tripoint)
    {q : tripoint} {id : Nat} (h : find_submap st.submaps q = some id)
    (hid : id < st.heap.length) :
    find_submap (fetch_submap env st sm_pos).2.submaps q = some id ∧
    (fetch_submap env st sm_pos).2.heap.getD id memorized_submap.init =
      st.heap.getD id memorized_submap.init ∧
    id < (fetch_submap env st sm_pos).2.heap.length := by
  rcases hf : find_submap st.submaps sm_pos with _ | j
  · rw [fetch_submap_miss env hf]
    refine ⟨find_submap_append_some h, ?_, ?_⟩
    · exact List.getD_append _ _ _ _ hid
    · simp only [List.length_append, List.length_cons, List.length_nil]
      omega
  · rw [fetch_submap_hit env hf]
    exact ⟨h, rfl, hid⟩

/-- After `fetch_submap`, the fetched coordinate is registered, the
returned index is its binding, and the index is a valid heap index. -/
theorem fetch_submap_registered (env : DiskEnv) (st : MMState) (sm_pos : tripoint)
    (hinv : ∀ q id, find_submap st.submaps q = some id → id < st.heap.length) :
    find_submap (fetch_submap env st sm_pos).2.submaps sm_pos =
      some (fetch_submap env st sm_pos).1 ∧
    (fetch_submap env st sm_pos).1 < (fetch_submap env st sm_pos).2.heap.length := by
  rcases hf : find_submap st.submaps sm_pos with _ | j
  · rw [fetch_submap_miss env hf]
    constructor
    · exact (find_submap_append_none hf).trans (find_submap_singleton_eq _)
    · simp
  · rw [fetch_submap_hit env hf]
    exact ⟨hf, hinv _ _ hf⟩

/-- Store indices always point into the heap; preserved by `fetch_submap`. -/
theorem fetch_submap_inv (env : DiskEnv) (st : MMState) (sm_pos : tripoint)
    (hinv : ∀ q id, find_submap st.submaps q = some id → id < st.heap.length) :
    ∀ q id, find_submap (fetch_submap env st sm_pos).2.submaps q = some id →
      id < (fetch_submap env st sm_pos).2.heap.length := by
  intro q id h
  rcases hf : find_submap st.submaps sm_pos with _ | j
  · rw [fetch_submap_miss env hf] at h ⊢
    simp only [List.length_append, List.length_cons, List.length_nil]
    rcases hq : find_submap st.submaps q with _ | i
    · rw [find_submap_append_none hq] at h
      by_cases hd : sm_pos = q
      · subst hd
        rw [find_submap_singleton_eq] at h
        have h2 := Option.some.inj h
        omega
      · rw [find_submap_singleton_ne _ hd] at h
        exact absurd h (by simp)
    · rw [find_submap_append_some hq] at h
      have h2 := Option.some.inj h
      have h3 := hinv q i hq
      omega
  · rw [fetch_submap_hit env hf] at h ⊢
    exact hinv q id h

/-- If the strict bounds test of the source fails, `get_submap` returns
the sentinel. -/
theorem get_submap_null {st : MMState} {sm_pos : tripoint}
    (h : ¬ (((sm_pos - st.cache_pos).xy).x > 0 ∧ ((sm_pos - st.cache_pos).xy).y > 0 ∧
        ((sm_pos - st.cache_pos).xy).x < st.cache_size.x ∧
        ((sm_pos - st.cache_pos).xy).y < st.cache_size.y)) :
    get_submap st sm_pos = submap_ref.null_ref := by
  simp only [get_submap]
  exact if_neg h

/-- A chunk outside the window in the spec's inclusive sense is also
rejected by the source's strict test. -/
theorem get_submap_null_of_not_in_window {st : MMState} {sm_pos : tripoint}
    (h : ¬ chunk_in_window st sm_pos) :
    get_submap st sm_pos = submap_ref.null_ref := by
  refine get_submap_null (fun hc => h ?_)
  exact ⟨le_of_lt hc.1, le_of_lt hc.2.1, hc.2.2.1, hc.2.2.2⟩

/-- Changing only the sentinel leaves `get_submap` unchanged. -/
theorem get_submap_set_null (st : MMState) (v : memorized_submap)
    (sm_pos : tripoint) :
    get_submap { st with null_mz_submap := v } sm_pos = get_submap st sm_pos := rfl

/-! ### Claim theorems -/

/-- C1: the spec requires the window lookup to treat every index in
`[0, size)` on both axes — index 0 included — as in-bounds and return the
dense-array cell `cells[idx.y*size.x+idx.x]`.  The source's strict
`idx.x > 0 && idx.y > 0` test instead returns the sentinel for the first
row and column: at `cst1` (origin `(0,0,0)`, size `2×2`) the chunk
`(0,0,0)` has index `(0,0)`, which is inside the window in the spec's
sense, yet `get_submap` yields `null_ref` instead of `cell 0`; index
`(1,1)` does get its dense cell.  This evaluates the code at the claim's
failing input. -/
theorem c1_get_submap_excludes_index_zero :
    chunk_in_window cst1 ⟨0, 0, 0⟩ ∧
    get_submap cst1 ⟨0, 0, 0⟩ = submap_ref.null_ref ∧
    get_submap cst1 ⟨0, 0, 0⟩ ≠ submap_ref.cell 0 ∧
    get_submap cst1 ⟨1, 1, 0⟩ = submap_ref.cell 3 := by decide

/-- C2: for a position whose chunk index lies outside `[0, size)` on
either axis, the lookup resolves to the shared sentinel (no dense-array
indexing), `get_tile` reads the sentinel's cell, and `memorize_tile`
leaves every chunk in the heap, the dense array, the chunk store and the
window bounds unchanged — so the write is never persisted: `save` produces
the same write set. -/
theorem c2_out_of_window_safety (st : MMState) (pos : tripoint) (ter : String)
    (subtile rotation : Int)
    (h : ¬ chunk_in_window st (coord_pair.of pos).sm) :
    get_submap st (coord_pair.of pos).sm = submap_ref.null_ref ∧
    get_tile st pos =
      st.null_mz_submap.tiles (coord_pair.of pos).loc.x (coord_pair.of pos).loc.y ∧
    (memorize_tile st pos ter subtile rotation).heap = st.heap ∧
    (memorize_tile st pos ter subtile rotation).cached = st.cached ∧
    (memorize_tile st pos ter subtile rotation).submaps = st.submaps ∧
    (memorize_tile st pos ter subtile rotation).cache_pos = st.cache_pos ∧
    (memorize_tile st pos ter subtile rotation).cache_size = st.cache_size ∧
    (∀ senv : SaveEnv, save senv (memorize_tile st pos ter subtile rotation) =
      save senv st) := by
  have hnull := get_submap_null_of_not_in_window h
  refine ⟨hnull, ?_, ?_, ?_, ?_, ?_, ?_, ?_⟩
  · simp only [get_tile, hnull, read_ref]
  · simp only [memorize_tile, hnull, modify_ref]
  · simp only [memorize_tile, hnull, modify_ref]
  · simp only [memorize_tile, hnull, modify_ref]
  · simp only [memorize_tile, hnull, modify_ref]
  · simp only [memorize_tile, hnull, modify_ref]
  · intro senv
    simp only [memorize_tile, hnull, modify_ref, save]

/-- C2 witness: `cst1`'s window is origin `(0,0,0)`, size `2×2`; world
position `(-5,3,0)` lies in chunk `(-1,0,0)`, outside the window. -/
theorem c2_out_of_window_safety_witness :
    get_submap cst1 (coord_pair.of ⟨-5, 3, 0⟩).sm = submap_ref.null_ref ∧
    get_tile cst1 ⟨-5, 3, 0⟩ =
      cst1.null_mz_submap.tiles (coord_pair.of ⟨-5, 3, 0⟩).loc.x
        (coord_pair.of ⟨-5, 3, 0⟩).loc.y ∧
    (memorize_tile cst1 ⟨-5, 3, 0⟩ "t_floor" 2 1).heap = cst1.heap ∧
    (memorize_tile cst1 ⟨-5, 3, 0⟩ "t_floor" 2 1).cached = cst1.cached ∧
    (memorize_tile cst1 ⟨-5, 3, 0⟩ "t_floor" 2 1).submaps = cst1.submaps ∧
    (memorize_tile cst1 ⟨-5, 3, 0⟩ "t_floor" 2 1).cache_pos = cst1.cache_pos ∧
    (memorize_tile cst1 ⟨-5, 3, 0⟩ "t_floor" 2 1).cache_size = cst1.cache_size ∧
    (∀ senv : SaveEnv, save senv (memorize_tile cst1 ⟨-5, 3, 0⟩ "t_floor" 2 1) =
      save senv cst1) :=
  c2_out_of_window_safety cst1 ⟨-5, 3, 0⟩ "t_floor" 2 1 (by decide)

/-- A state with one tracked chunk, used as the C3 counterexample. -/
def cst3 : MMState :=
  { cache_pos := ⟨0, 0, 0⟩, cache_size := ⟨0, 0⟩, cached := [],
    submaps := [(⟨0, 0, 0⟩, 0)], heap := [memorized_submap.init],
    null_mz_submap := memorized_submap.init }

/-- A save environment in which creating the chunk directory fails and
every file write fails. -/
def env_fail : SaveEnv := ⟨false, fun _ => false⟩

/-- C3 counterexample: with one tracked chunk, directory creation failing
and its file write failing, `save` still returns `true` — the source
ignores the results of `assure_dir_exist` and `write_to_file` and ends in
`return true;`, so failures are not propagated as a failed `save()`. -/
theorem c3_save_true_despite_failures :
    env_fail.assure_dir_ok = false ∧
    (save env_fail cst3).1 = [(⟨0, 0, 0⟩, false)] ∧
    (save env_fail cst3).2 = true := by decide

/-- C3 as amended: `save` attempts one independent write per tracked
chunk (the write set lists exactly the tracked coordinates) and reports
success unconditionally; directory-creation and write failures are not
reflected in its return value. -/
theorem c3_save_reports_success_unconditionally (env : SaveEnv) (st : MMState) :
    (save env st).2 = true ∧
    (save env st).1.map Prod.fst = st.submaps.map Prod.fst := by
  refine ⟨rfl, ?_⟩
  simp [save]

/-- C4: for every world position `p` — negative coordinates included —
the coordinate mapper satisfies `chunk(p)*S + local(p) = p` on x and y,
`local(p) ∈ [0,S)×[0,S)`, and `chunk(p).z = p.z` (floor-division
semantics, no off-by-one at zero). -/
theorem c4_coord_pair_reconstructs (p : tripoint) :
    (coord_pair.of p).sm.x * SEEX + (coord_pair.of p).loc.x = p.x ∧
    (coord_pair.of p).sm.y * SEEX + (coord_pair.of p).loc.y = p.y ∧
    0 ≤ (coord_pair.of p).loc.x ∧ (coord_pair.of p).loc.x < SEEX ∧
    0 ≤ (coord_pair.of p).loc.y ∧ (coord_pair.of p).loc.y < SEEX ∧
    (coord_pair.of p).sm.z = p.z := by
  refine ⟨?_, ?_, ?_, ?_, ?_, ?_, rfl⟩
  · show p.x.fdiv SEEX * SEEX + p.x.fmod SEEX = p.x
    rw [Int.mul_comm]
    exact Int.fdiv_add_fmod p.x SEEX
  · show p.y.fdiv SEEX * SEEX + p.y.fmod SEEX = p.y
    rw [Int.mul_comm]
    exact Int.fdiv_add_fmod p.y SEEX
  · exact Int.fmod_nonneg' p.x (by decide)
  · exact Int.fmod_lt_of_pos p.x (by decide)
  · exact Int.fmod_nonneg' p.y (by decide)
  · exact Int.fmod_lt_of_pos p.y (by decide)

/-- The rebuild loop of `prepare_region` never changes the window fields
of its accumulator and appends exactly one cell per visited coordinate. -/
theorem prepare_fold_fields (env : DiskEnv) (coords : List tripoint) (acc : MMState) :
    (coords.foldl (fun a c =>
        let r := fetch_submap env a c
        { r.2 with cached := r.2.cached ++ [r.1] }) acc).cache_pos = acc.cache_pos ∧
    (coords.foldl (fun a c =>
        let r := fetch_submap env a c
        { r.2 with cached := r.2.cached ++ [r.1] }) acc).cache_size = acc.cache_size ∧
    (coords.foldl (fun a c =>
        let r := fetch_submap env a c
        { r.2 with cached := r.2.cached ++ [r.1] }) acc).cached.length =
      acc.cached.length + coords.length := by
  induction coords generalizing acc with
  | nil => exact ⟨rfl, rfl, rfl⟩
  | cons c rest ih =>
    simp only [List.foldl_cons, List.length_cons]
    obtain ⟨h1, h2, h3⟩ := ih _
    obtain ⟨f1, f2, f3, f4⟩ := fetch_submap_fields env acc c
    refine ⟨h1.trans f1, h2.trans f2, ?_⟩
    rw [h3]
    simp only [List.length_append, f3, List.length_cons, List.length_nil]
    omega

/-- After any `prepare_region` call the window fields hold the freshly
computed origin and size (on the short-circuit path they already did). -/
theorem prepare_region_cache_fields (env : DiskEnv) (st : MMState) (p1 p2 : tripoint) :
    (prepare_region env st p1 p2).1.cache_pos = (coord_pair.of p1).sm - point.mk 1 1 ∧
    (prepare_region env st p1 p2).1.cache_size =
      ((coord_pair.of p2).sm - ((coord_pair.of p1).sm - point.mk 1 1)).xy +
        point.mk 1 1 := by
  simp only [prepare_region]
  by_cases hc : (coord_pair.of p1).sm - point.mk 1 1 = st.cache_pos ∧
      ((coord_pair.of p2).sm - ((coord_pair.of p1).sm - point.mk 1 1)).xy +
        point.mk 1 1 = st.cache_size
  · rw [if_pos hc]
    exact ⟨hc.1.symm, hc.2.symm⟩
  · rw [if_neg hc]
    exact ⟨(prepare_fold_fields env _ _).1, (prepare_fold_fields env _ _).2.1⟩

/-- C5: under the contract `p1.z = p2.z`, `p1.x ≤ p2.x`, `p1.y ≤ p2.y`,
and when the window actually changes, `prepare_region` sets the origin to
`chunk(p1) - (1,1)`, the size to `chunk(p2) - origin + (1,1)` (inclusive
coverage of `chunk(p2)`), and fetches exactly the window's coordinates in
row-major order (y outer, x inner), one dense cell per coordinate. -/
theorem c5_prepare_region_window (env : DiskEnv) (st : MMState) (p1 p2 : tripoint)
    (hz : p1.z = p2.z) (hx : p1.x ≤ p2.x) (hy : p1.y ≤ p2.y)
    (hne : ¬ ((coord_pair.of p1).sm - point.mk 1 1 = st.cache_pos ∧
        ((coord_pair.of p2).sm - ((coord_pair.of p1).sm - point.mk 1 1)).xy +
          point.mk 1 1 = st.cache_size)) :
    (prepare_region env st p1 p2).1.cache_pos = (coord_pair.of p1).sm - point.mk 1 1 ∧
    (prepare_region env st p1 p2).1.cache_size =
      ((coord_pair.of p2).sm - ((coord_pair.of p1).sm - point.mk 1 1)).xy +
        point.mk 1 1 ∧
    (prepare_region env st p1 p2).2 =
      window_coords ((coord_pair.of p1).sm - point.mk 1 1)
        (((coord_pair.of p2).sm - ((coord_pair.of p1).sm - point.mk 1 1)).xy +
          point.mk 1 1) ∧
    (prepare_region env st p1 p2).1.cached.length =
      (prepare_region env st p1 p2).2.length := by
  simp only [prepare_region]
  rw [if_neg hne]
  refine ⟨(prepare_fold_fields env _ _).1, (prepare_fold_fields env _ _).2.1, rfl, ?_⟩
  refine ((prepare_fold_fields env _ _).2.2).trans ?_
  simp

/-- C5 witness, the spec's scenario: low corner `(24,36,0)` is in chunk
`(2,3,0)`, high corner `(48,40,0)` in chunk `(4,3,0)`; the window comes
out as origin `(1,2,0)`, size `(4,2)`, with 8 cells fetched row-major. -/
theorem c5_prepare_region_window_witness :
    (prepare_region env_nodir cstE ⟨24, 36, 0⟩ ⟨48, 40, 0⟩).1.cache_pos = ⟨1, 2, 0⟩ ∧
    (prepare_region env_nodir cstE ⟨24, 36, 0⟩ ⟨48, 40, 0⟩).1.cache_size = ⟨4, 2⟩ ∧
    (prepare_region env_nodir cstE ⟨24, 36, 0⟩ ⟨48, 40, 0⟩).2 =
      window_coords ⟨1, 2, 0⟩ ⟨4, 2⟩ ∧
    (prepare_region env_nodir cstE ⟨24, 36, 0⟩ ⟨48, 40, 0⟩).1.cached.length = 8 := by
  obtain ⟨h1, h2, h3, h4⟩ := c5_prepare_region_window env_nodir cstE
    ⟨24, 36, 0⟩ ⟨48, 40, 0⟩ (by decide) (by decide) (by decide) (by decide)
  exact ⟨h1.trans (by decide), h2.trans (by decide), h3.trans (by decide),
    h4.trans (by decide)⟩

/-- C6: a second `prepare_region` with the same rectangle recomputes the
same origin and size, takes the short-circuit path, and is a no-op: the
whole state (window, dense array, chunk store, sentinel) is returned
unchanged and no coordinate is fetched. -/
theorem c6_prepare_region_idempotent (env : DiskEnv) (st : MMState)
    (p1 p2 : tripoint) :
    prepare_region env (prepare_region env st p1 p2).1 p1 p2 =
      ((prepare_region env st p1 p2).1, ([] : List tripoint)) := by
  obtain ⟨h1, h2⟩ := prepare_region_cache_fields env st p1 p2
  generalize (prepare_region env st p1 p2).1 = st2 at h1 h2 ⊢
  simp only [prepare_region]
  rw [if_pos ⟨h1.symm, h2.symm⟩]

/-- C7: `fetch_submap` is idempotent per coordinate: after a fetch the
coordinate is registered in the store and bound to the returned chunk, a
repeated fetch returns the same shared instance and leaves the state
unchanged, and on a miss the chunk registered and returned is the one
obtained from disk (or freshly allocated when the load reports
nothing). -/
theorem c7_fetch_submap_idempotent (env : DiskEnv) (st : MMState)
    (sm_pos : tripoint) :
    find_submap (fetch_submap env st sm_pos).2.submaps sm_pos =
      some (fetch_submap env st sm_pos).1 ∧
    fetch_submap env (fetch_submap env st sm_pos).2 sm_pos =
      ((fetch_submap env st sm_pos).1, (fetch_submap env st sm_pos).2) ∧
    (find_submap st.submaps sm_pos = none →
      (fetch_submap env st sm_pos).2.heap.getD (fetch_submap env st sm_pos).1
          memorized_submap.init =
        match (load_submap env sm_pos).1 with
        | some c => c
        | none => allocate_submap) := by
  rcases hf : find_submap st.submaps sm_pos with _ | id
  · rw [fetch_submap_miss env hf]
    have hreg : find_submap (st.submaps ++ [(sm_pos, st.heap.length)]) sm_pos =
        some st.heap.length :=
      (find_submap_append_none hf).trans (find_submap_singleton_eq _)
    refine ⟨hreg, fetch_submap_hit env hreg, fun _ => ?_⟩
    rw [List.getD_append_right _ _ _ _ (le_refl _)]
    simp
  · rw [fetch_submap_hit env hf]
    exact ⟨hf, fetch_submap_hit env hf, fun hn => Option.noConfusion hn⟩

/-- C7 witness: fetching `(7,8,9)` twice from a fresh store via a disk
whose files all parse to the empty submap. -/
theorem c7_fetch_submap_idempotent_witness :
    find_submap (fetch_submap env_goodfile cstE ⟨7, 8, 9⟩).2.submaps ⟨7, 8, 9⟩ =
      some (fetch_submap env_goodfile cstE ⟨7, 8, 9⟩).1 ∧
    fetch_submap env_goodfile (fetch_submap env_goodfile cstE ⟨7, 8, 9⟩).2 ⟨7, 8, 9⟩ =
      ((fetch_submap env_goodfile cstE ⟨7, 8, 9⟩).1,
       (fetch_submap env_goodfile cstE ⟨7, 8, 9⟩).2) ∧
    (fetch_submap env_goodfile cstE ⟨7, 8, 9⟩).2.heap.getD
        (fetch_submap env_goodfile cstE ⟨7, 8, 9⟩).1 memorized_submap.init =
      memorized_submap.init := by
  obtain ⟨h1, h2, h3⟩ := c7_fetch_submap_idempotent env_goodfile cstE ⟨7, 8, 9⟩
  exact ⟨h1, h2, (h3 rfl).trans rfl⟩

/-- C8: `load_submap` returns "not found" (never a fatal error) when the
chunk directory is absent, when the chunk's file is missing, and when
parsing the existing file throws; in the parse-failure case it logs the
`debugmsg` diagnostic built from the chunk coordinate and the underlying
error message, and a successful parse returns the populated submap. -/
theorem c8_load_submap_error_handling (env : DiskEnv) (sm_pos : tripoint) :
    (env.dir_exists = false → load_submap env sm_pos = (none, [])) ∧
    (env.dir_exists = true → env.file sm_pos = none →
      load_submap env sm_pos = (none, [])) ∧
    (∀ err, env.dir_exists = true → env.file sm_pos = some (Except.error err) →
      load_submap env sm_pos = (none, [submap_load_error_msg sm_pos err])) ∧
    (∀ c, env.dir_exists = true → env.file sm_pos = some (Except.ok c) →
      load_submap env sm_pos = (some c, [])) := by
  refine ⟨fun h => ?_, fun h hf => ?_, fun err h hf => ?_, fun c h hf => ?_⟩
  · simp [load_submap, h]
  · simp [load_submap, h, hf]
  · simp [load_submap, h, hf]
  · simp [load_submap, h, hf]

/-- C8 witness: the four disk situations at chunk `(1,2,3)`; the logged
diagnostic names the coordinate and the parse error. -/
theorem c8_load_submap_error_handling_witness :
    load_submap env_nodir ⟨1, 2, 3⟩ = (none, []) ∧
    load_submap env_missing ⟨1, 2, 3⟩ = (none, []) ∧
    load_submap env_badfile ⟨1, 2, 3⟩ =
      (none, [submap_load_error_msg ⟨1, 2, 3⟩ "bad json"]) ∧
    load_submap env_goodfile ⟨1, 2, 3⟩ = (some memorized_submap.init, []) ∧
    submap_load_error_msg ⟨1, 2, 3⟩ "bad json" =
      "Failed to load memory submap (1,2,3): bad json" := by
  refine ⟨(c8_load_submap_error_handling env_nodir ⟨1, 2, 3⟩).1 rfl,
    (c8_load_submap_error_handling env_missing ⟨1, 2, 3⟩).2.1 rfl rfl,
    (c8_load_submap_error_handling env_badfile ⟨1, 2, 3⟩).2.2.1 "bad json" rfl rfl,
    (c8_load_submap_error_handling env_goodfile ⟨1, 2, 3⟩).2.2.2
      memorized_submap.init rfl rfl, ?_⟩
  decide

/-- One step of `load_legacy`. -/
theorem load_legacy_cons (st : MMState) (e : tripoint × memorized_submap)
    (rest : List (tripoint × memorized_submap)) :
    load_legacy st (e :: rest) =
      load_legacy { st with heap := st.heap ++ [e.2],
                            submaps := st.submaps ++ [(e.1, st.heap.length)] }
        rest := rfl

/-- `load_legacy` preserves existing store bindings and their chunks. -/
theorem load_legacy_preserves (entries : List (tripoint × memorized_submap))
    (st : MMState) {c : tripoint} {id : Nat}
    (h : find_submap st.submaps c = some id) (hid : id < st.heap.length) :
    find_submap (load_legacy st entries).submaps c = some id ∧
    (load_legacy st entries).heap.getD id memorized_submap.init =
      st.heap.getD id memorized_submap.init ∧
    id < (load_legacy st entries).heap.length := by
  induction entries generalizing st with
  | nil => exact ⟨h, rfl, hid⟩
  | cons e rest ih =>
    rw [load_legacy_cons]
    have hstep : find_submap (st.submaps ++ [(e.1, st.heap.length)]) c = some id :=
      find_submap_append_some h
    have hlen : id < (st.heap ++ [e.2]).length := by
      rw [List.length_append]
      omega
    obtain ⟨i1, i2, i3⟩ := ih ({ st with
        heap := st.heap ++ [e.2],
        submaps := st.submaps ++ [(e.1, st.heap.length)] }) hstep hlen
    exact ⟨i1, i2.trans (List.getD_append _ _ _ _ hid), i3⟩

/-- Every coordinate of the legacy stream ends up registered in the store
bound to its parsed chunk (earliest entry wins, as with
`std::map::insert`). -/
theorem load_legacy_finds (entries : List (tripoint × memorized_submap))
    (st : MMState) {c : tripoint} {ch : memorized_submap}
    (hnone : find_submap st.submaps c = none)
    (hch : find_submap entries c = some ch) :
    ∃ id, find_submap (load_legacy st entries).submaps c = some id ∧
      (load_legacy st entries).heap.getD id memorized_submap.init = ch := by
  induction entries generalizing st with
  | nil => exact absurd hch (by simp [find_submap])
  | cons e rest ih =>
    rw [load_legacy_cons]
    by_cases he : e.1 = c
    · have hch2 : ch = e.2 := by
        unfold find_submap at hch
        rw [List.find?_cons_of_pos _ (by simpa using he)] at hch
        exact (Option.some.inj hch).symm
      have hreg : find_submap (st.submaps ++ [(e.1, st.heap.length)]) c =
          some st.heap.length := by
        rw [find_submap_append_none hnone, he]
        exact find_submap_singleton_eq _
      have hlen : st.heap.length < (st.heap ++ [e.2]).length := by simp
      obtain ⟨p1, p2, p3⟩ := load_legacy_preserves rest ({ st with
        heap := st.heap ++ [e.2],
        submaps := st.submaps ++ [(e.1, st.heap.length)] }) hreg hlen
      refine ⟨st.heap.length, p1, p2.trans ?_⟩
      rw [List.getD_append_right _ _ _ _ (le_refl _)]
      simp [hch2]
    · have hch2 : find_submap rest c = some ch := by
        unfold find_submap at hch ⊢
        rw [List.find?_cons_of_neg _ (by simpa using he)] at hch
        exact hch
      have hnone2 : find_submap (st.submaps ++ [(e.1, st.heap.length)]) c = none := by
        rw [find_submap_append_none hnone]
        exact find_submap_singleton_ne _ he
      exact ih _ hnone2 hch2

/-- The warming loop of `load` preserves registration in the store. -/
theorem load_fold_preserves_isSome (env : DiskEnv) (coords : List tripoint)
    (st : MMState) (c : tripoint)
    (h : (find_submap st.submaps c).isSome = true) :
    (find_submap
      (coords.foldl (fun acc x => (fetch_submap env acc x).2) st).submaps
        c).isSome = true := by
  induction coords generalizing st with
  | nil => exact h
  | cons a rest ih =>
    simp only [List.foldl_cons]
    refine ih _ ?_
    obtain ⟨v, hv⟩ := Option.isSome_iff_exists.mp h
    rcases hf : find_submap st.submaps a with _ | j
    · rw [fetch_submap_miss env hf]
      show (find_submap (st.submaps ++ [(a, st.heap.length)]) c).isSome = true
      rw [find_submap_append_some hv]
      rfl
    · rw [fetch_submap_hit env hf]
      exact h

/-- After the warming loop of `load`, every visited coordinate is
registered in the store. -/
theorem load_fold_warm (env : DiskEnv) (coords : List tripoint) (st : MMState)
    (c : tripoint) (hc : c ∈ coords) :
    (find_submap
      (coords.foldl (fun acc x => (fetch_submap env acc x).2) st).submaps
        c).isSome = true := by
  induction coords generalizing st with
  | nil => cases hc
  | cons a rest ih =>
    simp only [List.foldl_cons]
    rcases List.mem_cons.mp hc with rfl | hmem
    · refine load_fold_preserves_isSome env rest _ c ?_
      rcases hf : find_submap st.submaps c with _ | j
      · rw [fetch_submap_miss env hf]
        show (find_submap (st.submaps ++ [(c, st.heap.length)]) c).isSome = true
        rw [(find_submap_append_none hf).trans (find_submap_singleton_eq _)]
        rfl
      · rw [fetch_submap_hit env hf]
        rw [hf]
        rfl
    · exact ih _ hmem

/-- C9: when the chunk directory is absent and the legacy file parses,
`load` populates the Chunk Store directly through `load_legacy` — every
legacy entry becomes a registered chunk — performs no window fetches, and
returns; when the directory exists, `load` instead fetches exactly the
square window of chunks of width `MM_SIZE = 2 * MAPSIZE` whose low corner
is `chunk(pos) - (MM_SIZE/2, MM_SIZE/2, 0)` (i.e. centered on the chunk
containing `pos`), and afterwards every coordinate of that window is
tracked in the store. -/
theorem c9_load_legacy_fallback_and_eager_window (env : DiskEnv) (st : MMState)
    (pos : tripoint) :
    (∀ entries, env.dir_exists = false →
      env.legacy_file = some (Except.ok entries) →
      load env st pos = (load_legacy st entries, []) ∧
      ∀ c ch, find_submap st.submaps c = none → find_submap entries c = some ch →
        ∃ id, find_submap (load_legacy st entries).submaps c = some id ∧
          (load_legacy st entries).heap.getD id memorized_submap.init = ch) ∧
    (env.dir_exists = true →
      (load env st pos).2 =
        load_window_coords
          ((coord_pair.of pos).sm - tripoint.mk (MM_SIZE / 2) (MM_SIZE / 2) 0)
          MM_SIZE.toNat ∧
      MM_SIZE = 2 * MAPSIZE ∧
      ∀ c, c ∈ (load env st pos).2 →
        (find_submap (load env st pos).1.submaps c).isSome = true) := by
  constructor
  · intro entries hdir hleg
    constructor
    · simp [load, hdir, hleg]
    · intro c ch hnone hch
      exact load_legacy_finds entries st hnone hch
  · intro hdir
    have hload : load env st pos =
        ((load_window_coords
            ((coord_pair.of pos).sm - tripoint.mk (MM_SIZE / 2) (MM_SIZE / 2) 0)
            MM_SIZE.toNat).foldl (fun acc c => (fetch_submap env acc c).2) st,
         load_window_coords
            ((coord_pair.of pos).sm - tripoint.mk (MM_SIZE / 2) (MM_SIZE / 2) 0)
            MM_SIZE.toNat) := by
      simp [load, hdir]
    rw [hload]
    exact ⟨rfl, rfl, fun c hc => load_fold_warm env _ st c hc⟩

/-- A one-chunk legacy stream: chunk `(0,0,5)` was remembered. -/
def legacy_entries : List (tripoint × memorized_submap) :=
  [(⟨0, 0, 5⟩, memorized_submap.init)]

/-- Old save: no chunk directory, a parseable legacy file. -/
def env_legacy : DiskEnv := ⟨false, fun _ => none, some (Except.ok legacy_entries)⟩

/-- C9 witness: on the old save, `load` routes through `load_legacy` and
chunk `(0,0,5)` becomes served by the store; with the directory present,
`load` fetches the 22×22 window starting at `(-11,-11,0)` around the
chunk of `(0,0,0)` and tracks `(-11,-11,0)` afterwards. -/
theorem c9_load_legacy_fallback_and_eager_window_witness :
    load env_legacy cstE ⟨0, 0, 0⟩ = (load_legacy cstE legacy_entries, []) ∧
    (∃ id, find_submap (load_legacy cstE legacy_entries).submaps ⟨0, 0, 5⟩ =
        some id ∧
      (load_legacy cstE legacy_entries).heap.getD id memorized_submap.init =
        memorized_submap.init) ∧
    (load env_missing cstE ⟨0, 0, 0⟩).2 =
      load_window_coords
        ((coord_pair.of ⟨0, 0, 0⟩).sm - tripoint.mk (MM_SIZE / 2) (MM_SIZE / 2) 0)
        MM_SIZE.toNat ∧
    (find_submap (load env_missing cstE ⟨0, 0, 0⟩).1.submaps
      ⟨-11, -11, 0⟩).isSome = true := by
  obtain ⟨h1, h2⟩ := (c9_load_legacy_fallback_and_eager_window env_legacy cstE
    ⟨0, 0, 0⟩).1 legacy_entries rfl rfl
  obtain ⟨hd1, hd2, hd3⟩ := (c9_load_legacy_fallback_and_eager_window env_missing
    cstE ⟨0, 0, 0⟩).2 rfl
  exact ⟨h1, h2 ⟨0, 0, 5⟩ memorized_submap.init rfl rfl, hd1,
    hd3 ⟨-11, -11, 0⟩ (by decide)⟩

/-- C10: all out-of-window accesses alias the one shared mutable sentinel:
a `memorize_tile` (resp. `memorize_symbol`) at a position whose chunk
index falls outside `[0, size)` is observable through a later `get_tile`
(resp. `get_symbol`) at any other position whose chunk is also outside the
window and whose local offset is the same — even across unrelated world
regions and z-levels — although such writes are never persisted. -/
theorem c10_sentinel_aliasing (st : MMState) (p q : tripoint) (ter : String)
    (subtile rotation symbol : Int)
    (hp : ¬ chunk_in_window st (coord_pair.of p).sm)
    (hq : ¬ chunk_in_window st (coord_pair.of q).sm)
    (hloc : (coord_pair.of p).loc = (coord_pair.of q).loc) :
    get_tile (memorize_tile st p ter subtile rotation) q =
      ⟨ter, subtile, rotation⟩ ∧
    get_symbol (memorize_symbol st p symbol) q = symbol := by
  have hnp := get_submap_null_of_not_in_window hp
  have hnq := get_submap_null_of_not_in_window hq
  have hlx : (coord_pair.of p).loc.x = (coord_pair.of q).loc.x := by rw [hloc]
  have hly : (coord_pair.of p).loc.y = (coord_pair.of q).loc.y := by rw [hloc]
  constructor
  · simp only [memorize_tile, hnp, modify_ref, get_tile]
    rw [get_submap_set_null, hnq]
    simp only [read_ref, set_tile_at]
    rw [if_pos ⟨hlx.symm, hly.symm⟩]
  · simp only [memorize_symbol, hnp, modify_ref, get_symbol]
    rw [get_submap_set_null, hnq]
    simp only [read_ref, set_symbol_at]
    rw [if_pos ⟨hlx.symm, hly.symm⟩]

/-- C10 witness: with window origin `(0,0,0)` and size `2×2`, writing at
`(-13,-1,0)` (chunk `(-2,-1,0)`, local `(11,11)`) is read back at
`(35,-13,3)` (chunk `(2,-2,3)`, local `(11,11)`) — a different region on
a different z-level. -/
theorem c10_sentinel_aliasing_witness :
    get_tile (memorize_tile cst1 ⟨-13, -1, 0⟩ "t_tree" 1 2) ⟨35, -13, 3⟩ =
      ⟨"t_tree", 1, 2⟩ ∧
    get_symbol (memorize_symbol cst1 ⟨-13, -1, 0⟩ 42) ⟨35, -13, 3⟩ = 42 :=
  c10_sentinel_aliasing cst1 ⟨-13, -1, 0⟩ ⟨35, -13, 3⟩ "t_tree" 1 2 42
    (by decide) (by decide) (by decide)

end MapMemory
